import Mathlib

/-!
Shallow embedding of the hierarchical timing-wheel scheduler of libshkwon
(headers under include/shkwon/time_wheel_scheduler and the naming variant
under include/shkwon/TimeWheelScheduler; both variants implement the same
logic, so a single embedding serves both).

Modelling conventions:
* the wall clock (GetNowTimestamp) is an explicit parameter of every
  operation that reads it; within one driver tick it is held fixed;
* the wheel hierarchy is the scheduler's vector of wheels, coarsest
  ("greatest") first, exactly as built by AppendTimeWheel; the
  less-level / greater-level raw-pointer links of the source are the
  positional neighbours in that list (the less/finer neighbour of the
  wheel at index i is at index i+1, the greater/coarser one at i-1);
* uint32_t arithmetic is Nat with explicit reduction modulo 2^32 where
  the source can wrap (the id counter, the slot-offset product);
  int64_t values are Int;
* std::unordered_set / std::unordered_map are duplicate-free lists with
  set / first-key-wins map operations;
* executor submission is recorded as a TickOutcome value rather than a
  side effect.
-/

namespace Shkwon

/-- Truncation to 32 bits, the effect of C++ arithmetic on uint32_t. -/
def u32 (x : Nat) : Nat := x % 2 ^ 32

/-- TimeoutJob (timeout_job.hpp): id, absolute due time in ms, repeat
interval in ms, and the repetition flag the constructor derives from the
interval.  The opaque callback is not part of the state. -/
structure TimeoutJob where
  id : Nat
  whenMs : Int
  interval : Int
  isRepeated : Bool
  deriving Repr, DecidableEq

/-- TimeoutJob constructor: is_repeated_ is initialised to interval > 0. -/
def TimeoutJob.make (id : Nat) (whenMs interval : Int) : TimeoutJob :=
  { id := id, whenMs := whenMs, interval := interval, isRepeated := interval > 0 }

/-- TimeoutJob::UpdateExpirationTime(new_when = 0): a positive argument
replaces the due time, otherwise (including the 0 default used for the
no-argument call) the interval is added to the current due time. -/
def TimeoutJob.updateExpirationTime (t : TimeoutJob) (newWhen : Int := 0) : TimeoutJob :=
  if newWhen > 0 then { t with whenMs := newWhen }
  else { t with whenMs := t.whenMs + t.interval }

/-- TimeWheel (time_wheel.hpp): slot count, per-slot span in ms, current
slot index, and the slot vector.  The less/greater neighbour pointers are
represented positionally by the hierarchy list, not stored here. -/
structure TimeWheel where
  slotNum : Nat
  intervalInMillisecond : Nat
  curSlotIdx : Nat
  slots : List (List TimeoutJob)
  deriving Repr, DecidableEq

/-- TimeWheel constructor: index 0, slotNum empty slots. -/
def mkTimeWheel (totalSlotNumber interval : Nat) : TimeWheel :=
  { slotNum := totalSlotNumber, intervalInMillisecond := interval,
    curSlotIdx := 0, slots := List.replicate totalSlotNumber [] }

/-- Placeholder wheel used for out-of-range list indexing (never reached
in the well-formed uses stated by the theorems). -/
def dWheel : TimeWheel :=
  { slotNum := 0, intervalInMillisecond := 0, curSlotIdx := 0, slots := [] }

/-- slots_[n].push_back(timer): append the job at the back of slot n. -/
def TimeWheel.pushToSlot (w : TimeWheel) (n : Nat) (t : TimeoutJob) : TimeWheel :=
  { w with slots := w.slots.set n ((w.slots.getD n []) ++ [t]) }

/-- TimeWheel::PopCurrentSlot: move the jobs out of the current slot,
returning them and the wheel with that slot left empty. -/
def TimeWheel.popCurrentSlot (w : TimeWheel) : List TimeoutJob × TimeWheel :=
  (w.slots.getD w.curSlotIdx [], { w with slots := w.slots.set w.curSlotIdx [] })

/-- TimeWheel::GetCurrentTime on the sub-hierarchy headed by a wheel
(the list holds that wheel followed by its finer wheels): the wheel's own
curSlotIdx * intervalInMillisecond (a uint32 product) plus, recursively,
the less-level (finer) wheel's current time; 0 for an absent wheel. -/
def getCurrentTime : List TimeWheel → Int
  | [] => 0
  | w :: finer => (u32 (w.curSlotIdx * w.intervalInMillisecond) : Int) + getCurrentTime finer

/-- TimeWheel::AddTimer on the sub-hierarchy headed by a wheel: compute
diff = expiration + less-level current time - now; if diff is at least
this wheel's span, drop the job in slot (curSlotIdx + diff / span) mod
slotNum here; otherwise delegate to the less-level (finer) wheel when one
exists; otherwise (least wheel) use the current slot.  The divisions are
on non-negative values in the branch where they occur, so Nat division
matches the int64_t division of the source. -/
def addTimer (now : Int) (t : TimeoutJob) : List TimeWheel → List TimeWheel
  | [] => []
  | w :: finer =>
    let lessLevelTime := getCurrentTime finer
    let diff := t.whenMs + lessLevelTime - now
    if (w.intervalInMillisecond : Int) ≤ diff then
      w.pushToSlot ((w.curSlotIdx + diff.toNat / w.intervalInMillisecond) % w.slotNum) t :: finer
    else
      match finer with
      | [] => [w.pushToSlot w.curSlotIdx t]
      | f :: rest => w :: addTimer now t (f :: rest)

/-- TimeWheel::AddTimer entered at the wheel sitting at index i of the
full hierarchy (coarsest first): wheels coarser than i are untouched. -/
def addTimerAt (now : Int) (t : TimeoutJob) (i : Nat) (hier : List TimeWheel) : List TimeWheel :=
  hier.take i ++ addTimer now t (hier.drop i)

/-- TimeWheel::Increase of the wheel at index i of the full hierarchy
(coarsest first; its greater/coarser neighbour is at index i - 1):
advance the slot index; on overflow wrap it, and, when a greater wheel
exists, Increase that wheel recursively, pop its now-current slot and
re-insert every popped job starting from this wheel. -/
def increase (now : Int) : Nat → List TimeWheel → List TimeWheel
  | 0, hier =>
    let w := hier.getD 0 dWheel
    let idx := w.curSlotIdx + 1
    if idx < w.slotNum then
      hier.set 0 { w with curSlotIdx := idx }
    else
      hier.set 0 { w with curSlotIdx := idx % w.slotNum }
  | j + 1, hier =>
    let w := hier.getD (j + 1) dWheel
    let idx := w.curSlotIdx + 1
    if idx < w.slotNum then
      hier.set (j + 1) { w with curSlotIdx := idx }
    else
      let hier1 := hier.set (j + 1) { w with curSlotIdx := idx % w.slotNum }
      let hier2 := increase now j hier1
      let g := hier2.getD j dWheel
      let popped := g.popCurrentSlot
      let hier3 := hier2.set j popped.2
      popped.1.foldl (fun h t => addTimerAt now t (j + 1) h) hier3

/-- Duplicate-free model of std::unordered_set<uint32_t>::insert. -/
def setInsert (x : Nat) (l : List Nat) : List Nat :=
  if x ∈ l then l else x :: l

/-- Model of std::unordered_map<uint32_t, int64_t> operator[] assignment:
replace the value under an existing key, or add the binding. -/
def mapSet (k : Nat) (v : Int) : List (Nat × Int) → List (Nat × Int)
  | [] => [(k, v)]
  | (k', v') :: rest => if k' = k then (k, v) :: rest else (k', v') :: mapSet k v rest

/-- Model of std::unordered_map erase by key. -/
def mapErase (k : Nat) (l : List (Nat × Int)) : List (Nat × Int) :=
  l.filter (fun p => p.1 ≠ k)

/-- TimeWheelScheduler state: the uint32 id counter (initial value 1,
wraps modulo 2^32 on increment), the wheel vector (coarsest first), the
pending-cancel id set and the pending-reset map.  The mutex, threads and
pool carry no scheduling state and are elided. -/
structure TimeWheelScheduler where
  timerID : Nat
  timeWheels : List TimeWheel
  canceledTimerIds : List Nat
  restartTimerInfos : List (Nat × Int)
  deriving Repr, DecidableEq

/-- Freshly constructed scheduler: id counter 1, no wheels, no pending
cancel or reset entries. -/
def TimeWheelScheduler.init : TimeWheelScheduler :=
  { timerID := 1, timeWheels := [], canceledTimerIds := [], restartTimerInfos := [] }

/-- TimeWheelScheduler::GetGreatestTimeWheel: the front of the wheel
vector, i.e. the first wheel ever appended. -/
def TimeWheelScheduler.getGreatestTimeWheel (s : TimeWheelScheduler) : Option TimeWheel :=
  s.timeWheels.head?

/-- TimeWheelScheduler::GetLeastTimeWheel: the back of the wheel vector,
i.e. the most recently appended wheel. -/
def TimeWheelScheduler.getLeastTimeWheel (s : TimeWheelScheduler) : Option TimeWheel :=
  s.timeWheels.getLast?

/-- TimeWheelScheduler::AppendTimeWheel: push a fresh wheel at the back
of the vector; when the vector was non-empty the previous back wheel and
the new wheel are linked as greater/less neighbours, which the list
embedding represents by their adjacency. -/
def TimeWheelScheduler.appendTimeWheel (s : TimeWheelScheduler)
    (totalSlotNumber interval : Nat) : TimeWheelScheduler :=
  { s with timeWheels := s.timeWheels ++ [mkTimeWheel totalSlotNumber interval] }

/-- TimeWheelScheduler::CreateTimerAt: sentinel 0 with the state left
unchanged when no wheel exists; otherwise insert a fresh one-shot job
through the greatest (front) wheel and return the post-incremented
uint32 id counter's previous value. -/
def TimeWheelScheduler.createTimerAt (s : TimeWheelScheduler) (now whenMs : Int) :
    TimeWheelScheduler × Nat :=
  if s.timeWheels.isEmpty then (s, 0)
  else
    ({ s with
        timeWheels := addTimer now (TimeoutJob.make s.timerID whenMs 0) s.timeWheels,
        timerID := u32 (s.timerID + 1) },
     s.timerID)

/-- TimeWheelScheduler::CreateTimerEvery: like CreateTimerAt but the job
is due at now + interval and carries the repeat interval. -/
def TimeWheelScheduler.createTimerEvery (s : TimeWheelScheduler) (now interval : Int) :
    TimeWheelScheduler × Nat :=
  if s.timeWheels.isEmpty then (s, 0)
  else
    ({ s with
        timeWheels :=
          addTimer now (TimeoutJob.make s.timerID (now + interval) interval) s.timeWheels,
        timerID := u32 (s.timerID + 1) },
     s.timerID)

/-- TimeWheelScheduler::ResetTimerAt: record (or overwrite) the pending
reset entry for the id; nothing else changes. -/
def TimeWheelScheduler.resetTimerAt (s : TimeWheelScheduler) (id : Nat) (whenMs : Int) :
    TimeWheelScheduler :=
  { s with restartTimerInfos := mapSet id whenMs s.restartTimerInfos }

/-- TimeWheelScheduler::CancelTimer: record the id in the pending-cancel
set; nothing else changes. -/
def TimeWheelScheduler.cancelTimer (s : TimeWheelScheduler) (id : Nat) : TimeWheelScheduler :=
  { s with canceledTimerIds := setInsert id s.canceledTimerIds }

/-- Return value of TimeWheelScheduler::Start: false exactly when no
wheel has been appended (the driver thread is then not launched). -/
def TimeWheelScheduler.start (s : TimeWheelScheduler) : Bool :=
  !s.timeWheels.isEmpty

/-- Observable outcome of processing one popped job in the driver loop:
a reset was applied and the updated job re-inserted, or the job was
discarded as cancelled, or its Run was submitted to the executor (with
the re-inserted successor when the job repeats). -/
inductive TickOutcome
  | resetApplied (t : TimeoutJob)
  | canceledOut
  | fired (reinserted : Option TimeoutJob)
  deriving Repr, DecidableEq

/-- Body of the driver loop of TimeWheelScheduler::Start for one job
popped from the least wheel's current slot: pending reset first (apply
recorded due time, re-insert through the greatest wheel, drop the map
entry, do not fire), then pending cancel (drop the set entry, discard),
otherwise submit Run and, for a repeating job, advance the due time by
the interval and re-insert through the greatest wheel. -/
def TimeWheelScheduler.processTimer (s : TimeWheelScheduler) (now : Int) (t : TimeoutJob) :
    TimeWheelScheduler × TickOutcome :=
  match s.restartTimerInfos.lookup t.id with
  | some newWhen =>
    let t' := t.updateExpirationTime newWhen
    ({ s with
        timeWheels := addTimer now t' s.timeWheels,
        restartTimerInfos := mapErase t.id s.restartTimerInfos },
     TickOutcome.resetApplied t')
  | none =>
    if t.id ∈ s.canceledTimerIds then
      ({ s with canceledTimerIds := s.canceledTimerIds.erase t.id }, TickOutcome.canceledOut)
    else if t.isRepeated then
      let t' := t.updateExpirationTime 0
      ({ s with timeWheels := addTimer now t' s.timeWheels }, TickOutcome.fired (some t'))
    else
      (s, TickOutcome.fired none)

/-- One driver-loop iteration (one tick) under the lock: Increase the
least wheel, pop its current slot and process every popped job in order,
returning the final state and the per-job outcomes. -/
def TimeWheelScheduler.tick (s : TimeWheelScheduler) (now : Int) :
    TimeWheelScheduler × List TickOutcome :=
  let k := s.timeWheels.length - 1
  let hier1 := increase now k s.timeWheels
  let least := hier1.getD k dWheel
  let popped := least.popCurrentSlot
  let s1 := { s with timeWheels := hier1.set k popped.2 }
  popped.1.foldl
    (fun acc t =>
      let next := TimeWheelScheduler.processTimer acc.1 now t
      (next.1, acc.2 ++ [next.2]))
    (s1, [])

/-- Repeated application of the due-time advance the driver performs on
a repeating job at each fire (UpdateExpirationTime with its default
argument 0). -/
def advanceRepeats : Nat → TimeoutJob → TimeoutJob
  | 0, t => t
  | n + 1, t => advanceRepeats n (t.updateExpirationTime 0)

/-- Modelled from the words of the spec sentence behind claim C4 (for
comparison with the source's getCurrentTime): the accumulated time of
the wheel at index i of the hierarchy is its own currentIndex times its
bucket span plus, recursively, the accumulated time of its COARSER
neighbour (the wheel at index i - 1), zero when that neighbour is
absent. -/
def getCurrentTimeSpec (hier : List TimeWheel) : Nat → Int
  | 0 =>
    (u32 ((hier.getD 0 dWheel).curSlotIdx * (hier.getD 0 dWheel).intervalInMillisecond) : Int)
  | i + 1 =>
    (u32 ((hier.getD (i + 1) dWheel).curSlotIdx
        * (hier.getD (i + 1) dWheel).intervalInMillisecond) : Int)
      + getCurrentTimeSpec hier i

/-- Iterated creation of one-shot timers, used to reason about the
trajectory of the uint32 id counter. -/
def createMany (now : Int) : Nat → TimeWheelScheduler → TimeWheelScheduler
  | 0, s => s
  | n + 1, s => createMany now n (s.createTimerAt now 0).1

/-- Bucket span of the least (finest) wheel of a hierarchy. -/
def leastSpan (hier : List TimeWheel) : Nat :=
  (hier.getLastD dWheel).intervalInMillisecond

/-- Canonical-configuration relation between a wheel and its finer
neighbour: the coarser span is the finer wheel's slot count times the
finer span (the unenforced contract of the design notes). -/
def spanCanon (a b : TimeWheel) : Prop :=
  a.intervalInMillisecond = b.slotNum * b.intervalInMillisecond

/-! Helper lemmas. -/

theorem updateExpirationTime_default (t : TimeoutJob) :
    t.updateExpirationTime 0 = { t with whenMs := t.whenMs + t.interval } := by
  simp [TimeoutJob.updateExpirationTime]

theorem advanceRepeats_spec (n : Nat) (t : TimeoutJob) :
    (advanceRepeats n t).whenMs = t.whenMs + n * t.interval
      ∧ (advanceRepeats n t).interval = t.interval := by
  induction n generalizing t with
  | zero => simp [advanceRepeats]
  | succ n ih =>
    rw [advanceRepeats, updateExpirationTime_default]
    obtain ⟨h1, h2⟩ := ih { t with whenMs := t.whenMs + t.interval }
    refine ⟨?_, h2⟩
    rw [h1]
    push_cast
    ring

theorem addTimer_length (now : Int) (t : TimeoutJob) :
    ∀ hier : List TimeWheel, (addTimer now t hier).length = hier.length := by
  intro hier
  induction hier with
  | nil => rfl
  | cons w finer ih =>
    rw [addTimer.eq_def]
    simp only
    split
    · simp
    · match finer with
      | [] => rfl
      | f :: rest => simpa using ih

/-! Claim theorems. -/

/-- C7: a repeating job's due time after n driver repeat-advances (each
one the UpdateExpirationTime() call of the fire branch, which adds the
stored interval and never re-reads the clock) is exactly the initial due
time plus n times the interval — no cumulative drift. -/
theorem C7_repeat_no_drift (t : TimeoutJob) (hrep : 0 < t.interval) (n : Nat) :
    (advanceRepeats n t).whenMs = t.whenMs + n * t.interval :=
  (advanceRepeats_spec n t).1

/-- Witness for C7 at a concrete repeating job: interval 5, initial due
10, three fires, due time 25. -/
theorem C7_repeat_no_drift_witness :
    (0 : Int) < 5 ∧ (advanceRepeats 3 ⟨1, 10, 5, true⟩).whenMs = 25 := by
  refine ⟨by norm_num, ?_⟩
  have h := C7_repeat_no_drift ⟨1, 10, 5, true⟩ (by norm_num) 3
  norm_num at h
  exact h

/-- C8 counterexample: the claim says an explicitly supplied new due
time is adopted verbatim for every argument value, but UpdateExpirationTime
treats any non-positive argument as the "no argument" sentinel: supplying
-7 to a job with due 10 and interval 5 yields due 15, not -7. -/
theorem C8_counterexample :
    (TimeoutJob.updateExpirationTime ⟨1, 10, 5, true⟩ (-7)).whenMs = 15
      ∧ ((15 : Int) ≠ -7) := by
  decide

/-- C8 amended: UpdateExpirationTime sets the due time to the supplied
value only when that value is positive; a non-positive supplied value
(including the defaulted 0) instead adds the interval to the current due
time.  In both cases no other field of the job changes. -/
theorem C8_updateExpirationTime (t : TimeoutJob) (v : Int) :
    (0 < v → t.updateExpirationTime v = { t with whenMs := v })
      ∧ (v ≤ 0 → t.updateExpirationTime v = { t with whenMs := t.whenMs + t.interval })
      ∧ (t.updateExpirationTime v).id = t.id
      ∧ (t.updateExpirationTime v).interval = t.interval
      ∧ (t.updateExpirationTime v).isRepeated = t.isRepeated := by
  unfold TimeoutJob.updateExpirationTime
  refine ⟨fun h => by rw [if_pos h], fun h => by rw [if_neg (not_lt.mpr h)], ?_, ?_, ?_⟩ <;>
    split <;> rfl

/-- Witness for C8 at a concrete positive argument: supplying 7 replaces
the due time 10 by 7 and keeps the other fields. -/
theorem C8_updateExpirationTime_witness :
    (0 : Int) < 7
      ∧ TimeoutJob.updateExpirationTime ⟨1, 10, 5, true⟩ 7 = ⟨1, 7, 5, true⟩ :=
  ⟨by norm_num, (C8_updateExpirationTime ⟨1, 10, 5, true⟩ 7).1 (by norm_num)⟩

/-- Concrete two-level hierarchy for the C4 counterexample: a coarse
wheel (span 100, index 2) followed by its finer neighbour (span 10,
index 3). -/
def hierC4 : List TimeWheel :=
  [⟨10, 100, 2, List.replicate 10 []⟩, ⟨10, 10, 3, List.replicate 10 []⟩]

/-- C4 counterexample: GetCurrentTime of the finer wheel (source:
3 * 10 plus the accumulated time of the LESS-level wheel, which is
absent here) is 30, while the claim's formula (own offset plus the
coarser neighbour's accumulated time) gives 230. -/
theorem C4_counterexample :
    getCurrentTime (hierC4.drop 1) = 30
      ∧ getCurrentTimeSpec hierC4 1 = 230
      ∧ ((30 : Int) ≠ 230) := by
  decide

/-- C4 amended: a wheel's GetCurrentTime is its own currentIndex times
its bucket span plus, recursively, the accumulated time of its FINER
(less-level) neighbour — zero when absent; in closed form, the sum of
the index-span products of the wheel and all wheels finer than it. -/
theorem C4_getCurrentTime_closed (hier : List TimeWheel) :
    getCurrentTime hier
      = (hier.map (fun w => (u32 (w.curSlotIdx * w.intervalInMillisecond) : Int))).sum := by
  induction hier with
  | nil => simp [getCurrentTime]
  | cons w finer ih => simp [getCurrentTime, ih]

/-- C3 counterexample: after appending a wheel (10 slots, span 1000) and
then a second wheel (60 slots, span 100), the entry-point wheel returned
by GetGreatestTimeWheel is still the FIRST appended wheel, not the most
recently appended one as the claim states. -/
theorem C3_counterexample :
    ((TimeWheelScheduler.init.appendTimeWheel 10 1000).appendTimeWheel 60 100).getGreatestTimeWheel
        = some (mkTimeWheel 10 1000)
      ∧ mkTimeWheel 10 1000 ≠ mkTimeWheel 60 100 := by
  decide

/-- C3 amended: the first AppendTimeWheel call establishes the sole
level; each subsequent call appends a wheel that becomes the new FINEST
(least) level, linked to the previously finest wheel, while the entry
point used by CreateTimer* — the greatest wheel — stays the first
appended wheel. -/
theorem C3_appendTimeWheel (s : TimeWheelScheduler) (n i : Nat) :
    (s.appendTimeWheel n i).timeWheels = s.timeWheels ++ [mkTimeWheel n i]
      ∧ (s.appendTimeWheel n i).getLeastTimeWheel = some (mkTimeWheel n i)
      ∧ (s.timeWheels = [] →
          (s.appendTimeWheel n i).getGreatestTimeWheel = some (mkTimeWheel n i))
      ∧ (s.timeWheels ≠ [] →
          (s.appendTimeWheel n i).getGreatestTimeWheel = s.getGreatestTimeWheel) := by
  refine ⟨rfl, ?_, ?_, ?_⟩
  · simp [TimeWheelScheduler.getLeastTimeWheel, TimeWheelScheduler.appendTimeWheel]
  · intro h
    simp [TimeWheelScheduler.getGreatestTimeWheel, TimeWheelScheduler.appendTimeWheel, h]
  · intro h
    cases hl : s.timeWheels with
    | nil => exact absurd hl h
    | cons a l =>
      simp [TimeWheelScheduler.getGreatestTimeWheel, TimeWheelScheduler.appendTimeWheel, hl]

/-- Witness for C3: with one wheel already present, appending a second
wheel leaves the greatest (entry) wheel unchanged and makes the new
wheel the least one. -/
theorem C3_appendTimeWheel_witness :
    (TimeWheelScheduler.init.appendTimeWheel 10 1000).timeWheels ≠ []
      ∧ ((TimeWheelScheduler.init.appendTimeWheel 10 1000).appendTimeWheel 60 100).getGreatestTimeWheel
          = (TimeWheelScheduler.init.appendTimeWheel 10 1000).getGreatestTimeWheel := by
  refine ⟨by decide, ?_⟩
  exact (C3_appendTimeWheel (TimeWheelScheduler.init.appendTimeWheel 10 1000) 60 100).2.2.2
    (by decide)

/-- C2 counterexample: request a cancel for id 1 and then (later) a
reset for id 1; the resulting reachable state carries id 1 in BOTH the
pending-cancel set and the pending-reset map — the claim's mutual
exclusion ("the later request removes or supersedes the earlier one")
does not hold. -/
theorem C2_counterexample :
    (1 : Nat) ∈ ((TimeWheelScheduler.init.cancelTimer 1).resetTimerAt 1 100).canceledTimerIds
      ∧ ((TimeWheelScheduler.init.cancelTimer 1).resetTimerAt 1 100).restartTimerInfos.lookup 1
          = some 100 := by
  decide

/-- C2 amended: ResetTimerAt never touches the pending-cancel set and
CancelTimer never touches the pending-reset map, so the same id can be
pending in both; when it is, the driver resolves the conflict at pop
time in favour of the reset (checked first), leaving the cancel entry
in place. -/
theorem C2_pending_requests (s : TimeWheelScheduler) (id : Nat) (w now : Int)
    (t : TimeoutJob) :
    ((s.resetTimerAt id w).canceledTimerIds = s.canceledTimerIds)
      ∧ ((s.cancelTimer id).restartTimerInfos = s.restartTimerInfos)
      ∧ (∀ v, s.restartTimerInfos.lookup t.id = some v →
          (s.processTimer now t).2 = TickOutcome.resetApplied (t.updateExpirationTime v)
            ∧ (s.processTimer now t).1.canceledTimerIds = s.canceledTimerIds) := by
  refine ⟨rfl, rfl, ?_⟩
  intro v hv
  unfold TimeWheelScheduler.processTimer
  rw [hv]
  exact ⟨rfl, rfl⟩

/-- Witness for C2 at a concrete state with both a pending cancel and a
pending reset for id 1: the pop outcome is the applied reset and the
cancel entry survives. -/
theorem C2_pending_requests_witness :
    ((TimeWheelScheduler.mk 2 [] [1] [(1, 100)]).processTimer 0 ⟨1, 40, 0, false⟩).2
        = TickOutcome.resetApplied ⟨1, 100, 0, false⟩
      ∧ ((TimeWheelScheduler.mk 2 [] [1] [(1, 100)]).processTimer 0 ⟨1, 40, 0, false⟩).1.canceledTimerIds
          = [1] := by
  have h := (C2_pending_requests (TimeWheelScheduler.mk 2 [] [1] [(1, 100)]) 1 100 0
      ⟨1, 40, 0, false⟩).2.2 100 (by decide)
  refine ⟨?_, h.2⟩
  rw [h.1]
  decide

/-- Concrete scheduler state for the C1 counterexample: one wheel, no
pending cancel, a pending reset recording due time -7 for id 1. -/
def sC1 : TimeWheelScheduler := ⟨1, [mkTimeWheel 8 10], [], [(1, -7)]⟩

/-- C1 counterexample: the claim says the reset branch sets the popped
job's due time to the recorded value; with recorded value -7 the job
(due 100) is re-inserted with due time still 100, because
UpdateExpirationTime ignores non-positive arguments. -/
theorem C1_counterexample :
    sC1.restartTimerInfos.lookup 1 = some (-7)
      ∧ (sC1.processTimer 0 ⟨1, 100, 0, false⟩).2
          = TickOutcome.resetApplied ⟨1, 100, 0, false⟩
      ∧ ((100 : Int) ≠ -7) := by
  decide

/-- C1 amended: every job popped from the least wheel's current slot
receives exactly one of the three outcomes, tested in this precedence
order.  Pending reset: the due time is set to the recorded value
provided that value is positive (a non-positive recorded value instead
adds the interval, by the UpdateExpirationTime sentinel), the map entry
is removed, the job re-enters through the greatest wheel, and it does
not fire.  Otherwise pending cancel: the set entry is removed and the
job is discarded without firing or re-insertion.  Otherwise the job's
Run is submitted and, exactly when it repeats, its due time advances by
the interval and it re-enters through the greatest wheel. -/
theorem C1_driver_outcomes (s : TimeWheelScheduler) (now : Int) (t : TimeoutJob) :
    (∀ w, s.restartTimerInfos.lookup t.id = some w →
        s.processTimer now t =
          ({ s with
              timeWheels := addTimer now (t.updateExpirationTime w) s.timeWheels,
              restartTimerInfos := mapErase t.id s.restartTimerInfos },
           TickOutcome.resetApplied (t.updateExpirationTime w))
          ∧ (0 < w → (t.updateExpirationTime w).whenMs = w))
      ∧ (s.restartTimerInfos.lookup t.id = none → t.id ∈ s.canceledTimerIds →
          s.processTimer now t =
            ({ s with canceledTimerIds := s.canceledTimerIds.erase t.id },
             TickOutcome.canceledOut))
      ∧ (s.restartTimerInfos.lookup t.id = none → t.id ∉ s.canceledTimerIds →
          t.isRepeated = true →
          s.processTimer now t =
            ({ s with timeWheels := addTimer now (t.updateExpirationTime 0) s.timeWheels },
             TickOutcome.fired (some (t.updateExpirationTime 0)))
            ∧ (t.updateExpirationTime 0).whenMs = t.whenMs + t.interval)
      ∧ (s.restartTimerInfos.lookup t.id = none → t.id ∉ s.canceledTimerIds →
          t.isRepeated = false →
          s.processTimer now t = (s, TickOutcome.fired none)) := by
  refine ⟨?_, ?_, ?_, ?_⟩
  · intro w hw
    unfold TimeWheelScheduler.processTimer
    rw [hw]
    refine ⟨rfl, fun hpos => ?_⟩
    unfold TimeoutJob.updateExpirationTime
    rw [if_pos hpos]
  · intro hnone hmem
    unfold TimeWheelScheduler.processTimer
    rw [hnone]
    simp only [if_pos hmem]
  · intro hnone hmem hrep
    unfold TimeWheelScheduler.processTimer
    rw [hnone]
    simp only [if_neg hmem, hrep, if_pos]
    rw [updateExpirationTime_default]
    exact ⟨trivial, rfl⟩
  · intro hnone hmem hrep
    unfold TimeWheelScheduler.processTimer
    rw [hnone]
    simp only [if_neg hmem, hrep]
    rfl

/-- Witness for C1 at a concrete state: a repeating job with no pending
reset or cancel fires and re-enters with due time advanced by its
interval. -/
theorem C1_driver_outcomes_witness :
    (TimeWheelScheduler.mk 3 [mkTimeWheel 4 10] [] []).processTimer 0 ⟨2, 30, 10, true⟩
        = ({ TimeWheelScheduler.mk 3 [mkTimeWheel 4 10] [] [] with
              timeWheels := addTimer 0 (TimeoutJob.updateExpirationTime ⟨2, 30, 10, true⟩ 0)
                [mkTimeWheel 4 10] },
           TickOutcome.fired (some (TimeoutJob.updateExpirationTime ⟨2, 30, 10, true⟩ 0)))
      ∧ (TimeoutJob.updateExpirationTime ⟨2, 30, 10, true⟩ 0).whenMs = 40 := by
  have h := (C1_driver_outcomes (TimeWheelScheduler.mk 3 [mkTimeWheel 4 10] [] []) 0
      ⟨2, 30, 10, true⟩).2.2.1 (by decide) (by decide) (by decide)
  refine ⟨h.1, ?_⟩
  rw [h.2]
  decide

/-- C5: AddTimer placement trichotomy.  With remaining = due time plus
the finer sub-hierarchy's accumulated time minus the wall clock (the
hierarchy-relative remaining time): at least one bucket span ⇒ the job
goes into slot (currentIndex + remaining / span) mod slotNum of this
wheel; below one span with a finer wheel present ⇒ insertion is
delegated to the finer wheel; below one span on the least wheel ⇒ the
job goes into the current slot, to be harvested on the next tick rather
than rejected. -/
theorem C5_addTimer_placement (now : Int) (t : TimeoutJob) (w : TimeWheel)
    (finer : List TimeWheel) (hspan : 0 < w.intervalInMillisecond) :
    ((w.intervalInMillisecond : Int) ≤ t.whenMs + getCurrentTime finer - now →
        addTimer now t (w :: finer) =
          w.pushToSlot
            ((w.curSlotIdx
                + (t.whenMs + getCurrentTime finer - now).toNat / w.intervalInMillisecond)
              % w.slotNum) t :: finer)
      ∧ (t.whenMs + getCurrentTime finer - now < (w.intervalInMillisecond : Int) →
          finer ≠ [] → addTimer now t (w :: finer) = w :: addTimer now t finer)
      ∧ (t.whenMs + getCurrentTime finer - now < (w.intervalInMillisecond : Int) →
          finer = [] → addTimer now t (w :: finer) = [w.pushToSlot w.curSlotIdx t]) := by
  refine ⟨?_, ?_, ?_⟩
  · intro hge
    rw [addTimer.eq_def]
    simp only
    rw [if_pos hge]
  · intro hlt hne
    rw [addTimer.eq_def]
    simp only
    rw [if_neg (not_le.mpr hlt)]
    cases finer with
    | nil => exact absurd rfl hne
    | cons f rest => rfl
  · intro hlt hnil
    subst hnil
    rw [addTimer.eq_def]
    simp only
    rw [if_neg (not_le.mpr hlt)]

/-- Witness for C5 on a single wheel of 10 slots spanning 100 ms: a job
due at 250 ms with the clock at 0 lands in slot (0 + 250 / 100) mod 10
= 2. -/
theorem C5_addTimer_placement_witness :
    0 < (mkTimeWheel 10 100).intervalInMillisecond
      ∧ ((mkTimeWheel 10 100).intervalInMillisecond : Int)
          ≤ (250 : Int) + getCurrentTime [] - 0
      ∧ addTimer 0 ⟨1, 250, 0, false⟩ [mkTimeWheel 10 100]
          = [(mkTimeWheel 10 100).pushToSlot 2 ⟨1, 250, 0, false⟩] := by
  refine ⟨by decide, by decide, ?_⟩
  have h := (C5_addTimer_placement 0 ⟨1, 250, 0, false⟩ (mkTimeWheel 10 100) []
      (by decide)).1 (by decide)
  rw [h]
  decide

/-- Trajectory of the uint32 id counter under repeated timer creation:
with at least one wheel appended, after n one-shot creations the counter
has advanced by n modulo 2^32 and the wheel vector is still non-empty. -/
theorem createMany_spec (now : Int) (n : Nat) :
    ∀ s : TimeWheelScheduler, s.timeWheels ≠ [] → s.timerID < 2 ^ 32 →
      (createMany now n s).timerID = (s.timerID + n) % 2 ^ 32
        ∧ (createMany now n s).timeWheels ≠ [] := by
  induction n with
  | zero =>
    intro s hs hlt
    exact ⟨(Nat.mod_eq_of_lt hlt).symm, hs⟩
  | succ n ih =>
    intro s hs hlt
    have hemp : s.timeWheels.isEmpty = false := by
      cases hl : s.timeWheels with
      | nil => exact absurd hl hs
      | cons a l => rfl
    have hstep : (s.createTimerAt now 0).1
        = { s with
              timeWheels := addTimer now (TimeoutJob.make s.timerID 0 0) s.timeWheels,
              timerID := u32 (s.timerID + 1) } := by
      unfold TimeWheelScheduler.createTimerAt
      rw [hemp]
      rfl
    have hne : (addTimer now (TimeoutJob.make s.timerID 0 0) s.timeWheels) ≠ [] := by
      intro hcon
      have := addTimer_length now (TimeoutJob.make s.timerID 0 0) s.timeWheels
      rw [hcon] at this
      exact hs (List.length_eq_zero.mp this.symm)
    have hu : u32 (s.timerID + 1) < 2 ^ 32 := Nat.mod_lt _ (by norm_num)
    obtain ⟨h1, h2⟩ := ih ((s.createTimerAt now 0).1) (by rw [hstep]; exact hne)
      (by rw [hstep]; exact hu)
    rw [createMany]
    refine ⟨?_, h2⟩
    rw [h1, hstep]
    show (u32 (s.timerID + 1) + n) % 2 ^ 32 = _
    unfold u32
    rw [Nat.mod_add_mod]
    have : s.timerID + 1 + n = s.timerID + (n + 1) := by omega
    rw [this]

/-- With a non-empty wheel vector, CreateTimerAt returns the current
value of the id counter. -/
theorem createTimerAt_snd (s : TimeWheelScheduler) (now whenMs : Int)
    (hemp : s.timeWheels.isEmpty = false) :
    (s.createTimerAt now whenMs).2 = s.timerID := by
  unfold TimeWheelScheduler.createTimerAt
  rw [hemp]
  rfl

/-- Scheduler with a single wheel, first state of the C9 counterexample. -/
def baseC9 : TimeWheelScheduler := TimeWheelScheduler.init.appendTimeWheel 8 50

/-- C9 counterexample: after 2^32 - 1 successful timer creations the
uint32 id counter has wrapped to 0, so the next CreateTimerAt returns 0
even though a wheel exists — refuting "when at least one wheel exists,
CreateTimerAt returns a nonzero id". -/
theorem C9_counterexample :
    (createMany 0 (2 ^ 32 - 1) baseC9).timeWheels ≠ []
      ∧ ((createMany 0 (2 ^ 32 - 1) baseC9).createTimerAt 0 3000).2 = 0 := by
  obtain ⟨hid, hne⟩ := createMany_spec 0 (2 ^ 32 - 1) baseC9 (by decide) (by decide)
  have hid0 : (createMany 0 (2 ^ 32 - 1) baseC9).timerID = 0 := by
    rw [hid]
    decide
  refine ⟨hne, ?_⟩
  generalize hgen : createMany 0 (2 ^ 32 - 1) baseC9 = S at hid0 hne ⊢
  have hemp : S.timeWheels.isEmpty = false := by
    cases hl : S.timeWheels with
    | nil => exact absurd hl hne
    | cons a l => rfl
  rw [createTimerAt_snd S 0 3000 hemp, hid0]

/-- C9 amended: with no wheel appended, CreateTimerAt and
CreateTimerEvery return the sentinel 0 and leave the state unchanged,
and Start reports failure; with at least one wheel, both return the
current value of the id counter, which is nonzero as long as the uint32
counter (starting at 1) has not wrapped around to 0. -/
theorem C9_sentinel (s : TimeWheelScheduler) (now whenMs interval : Int) :
    (s.timeWheels = [] →
        s.createTimerAt now whenMs = (s, 0)
          ∧ s.createTimerEvery now interval = (s, 0)
          ∧ s.start = false)
      ∧ (s.timeWheels ≠ [] →
          (s.createTimerAt now whenMs).2 = s.timerID
            ∧ (s.createTimerEvery now interval).2 = s.timerID
            ∧ s.start = true
            ∧ (s.timerID ≠ 0 → (s.createTimerAt now whenMs).2 ≠ 0)) := by
  constructor
  · intro h
    have hemp : s.timeWheels.isEmpty = true := by rw [h]; rfl
    refine ⟨?_, ?_, ?_⟩
    · unfold TimeWheelScheduler.createTimerAt
      rw [hemp]
      rfl
    · unfold TimeWheelScheduler.createTimerEvery
      rw [hemp]
      rfl
    · unfold TimeWheelScheduler.start
      rw [hemp]
      rfl
  · intro h
    have hemp : s.timeWheels.isEmpty = false := by
      cases hl : s.timeWheels with
      | nil => exact absurd hl h
      | cons a l => rfl
    have hat : (s.createTimerAt now whenMs).2 = s.timerID := by
      unfold TimeWheelScheduler.createTimerAt
      rw [hemp]
      rfl
    refine ⟨hat, ?_, ?_, ?_⟩
    · unfold TimeWheelScheduler.createTimerEvery
      rw [hemp]
      rfl
    · unfold TimeWheelScheduler.start
      rw [hemp]
      rfl
    · intro hz
      rw [hat]
      exact hz

/-- Witness for C9 at the freshly constructed scheduler (no wheels):
CreateTimerAt returns the sentinel 0 with the state unchanged, and
Start fails. -/
theorem C9_sentinel_witness :
    TimeWheelScheduler.init.createTimerAt 0 5 = (TimeWheelScheduler.init, 0)
      ∧ TimeWheelScheduler.init.start = false :=
  ⟨((C9_sentinel TimeWheelScheduler.init 0 5 7).1 rfl).1,
   ((C9_sentinel TimeWheelScheduler.init 0 5 7).1 rfl).2.2⟩

/-- C6: Increase of the wheel at index i of the hierarchy advances its
slot index by one modulo its slot count.  When the incremented index
stays below the slot count no wrap happens and only that wheel changes
(the result is the same hierarchy with just wheel i replaced).  Exactly
when the index wraps to zero: if no coarser wheel exists only the index
resets; otherwise the coarser wheel (index i - 1 = j) is Increased
recursively, its now-current slot is popped, and every popped job is
re-inserted through AddTimer starting from this (finer) wheel. -/
theorem C6_increase_cases (now : Int) (hier : List TimeWheel) (i : Nat) (w : TimeWheel)
    (hw : hier.getD i dWheel = w) (hlt : w.curSlotIdx < w.slotNum) :
    (w.curSlotIdx + 1 < w.slotNum →
        (w.curSlotIdx + 1) % w.slotNum = w.curSlotIdx + 1
          ∧ increase now i hier = hier.set i { w with curSlotIdx := w.curSlotIdx + 1 })
      ∧ (w.curSlotIdx + 1 = w.slotNum →
          (w.curSlotIdx + 1) % w.slotNum = 0
            ∧ (i = 0 → increase now 0 hier = hier.set 0 { w with curSlotIdx := 0 })
            ∧ (∀ j, i = j + 1 →
                increase now (j + 1) hier =
                  (let hier2 := increase now j (hier.set (j + 1) { w with curSlotIdx := 0 })
                   let popped := (hier2.getD j dWheel).popCurrentSlot
                   popped.1.foldl (fun h t => addTimerAt now t (j + 1) h)
                     (hier2.set j popped.2)))) := by
  subst hw
  constructor
  · intro hlt2
    refine ⟨Nat.mod_eq_of_lt hlt2, ?_⟩
    cases i with
    | zero =>
      rw [increase.eq_def]
      simp only
      rw [if_pos hlt2]
    | succ j =>
      rw [increase.eq_def]
      simp only
      rw [if_pos hlt2]
  · intro heq
    have hnot : ¬((hier.getD i dWheel).curSlotIdx + 1 < (hier.getD i dWheel).slotNum) := by
      omega
    refine ⟨by rw [heq, Nat.mod_self], ?_, ?_⟩
    · intro hi
      subst hi
      rw [increase.eq_def]
      simp only
      rw [if_neg hnot, heq, Nat.mod_self]
    · intro j hj
      subst hj
      rw [increase.eq_def]
      simp only
      rw [if_neg hnot, heq, Nat.mod_self]

/-- Job sitting in the coarse wheel of the concrete C6 hierarchy. -/
def jC6 : TimeoutJob := ⟨7, 35, 0, false⟩

/-- Concrete two-level hierarchy for the C6 witness: a coarse wheel
(3 slots, span 30, index 1, one job parked in slot 1) over a fine wheel
(3 slots, span 10, index 2, about to wrap). -/
def hC6 : List TimeWheel :=
  [⟨3, 30, 1, [[], [jC6], []]⟩, ⟨3, 10, 2, [[], [], []]⟩]

/-- Witness for C6: ticking the fine wheel of the concrete hierarchy
wraps its index to 0, ticks the coarse wheel to index 2 and pops the
(empty) coarse slot 2, leaving the parked job in place. -/
theorem C6_increase_cases_witness :
    increase 33 (0 + 1) hC6
      = [⟨3, 30, 2, [[], [jC6], []]⟩, ⟨3, 10, 0, [[], [], []]⟩] := by
  have h := ((C6_increase_cases 33 hC6 1 ⟨3, 10, 2, [[], [], []]⟩ (by decide)
      (by decide)).2 (by decide)).2.2 0 rfl
  rw [h]
  decide

/-- Telescoping bound for a canonically configured hierarchy: the
accumulated time of the wheels finer than the head wheel, plus the
finest span, never exceeds the head wheel's own span. -/
theorem getCurrentTime_le (finer : List TimeWheel) :
    ∀ w : TimeWheel, List.Chain' spanCanon (w :: finer) →
      (∀ x ∈ w :: finer, x.curSlotIdx < x.slotNum ∧ x.intervalInMillisecond < 2 ^ 32) →
      getCurrentTime finer + (leastSpan (w :: finer) : Int)
        ≤ (w.intervalInMillisecond : Int) := by
  induction finer with
  | nil =>
    intro w _ _
    simp [getCurrentTime, leastSpan, List.getLastD]
  | cons b rest ih =>
    intro w hchain hvalid
    obtain ⟨hwb, hchain'⟩ := List.chain'_cons.mp hchain
    have hvalid' : ∀ x ∈ b :: rest, x.curSlotIdx < x.slotNum
        ∧ x.intervalInMillisecond < 2 ^ 32 :=
      fun x hx => hvalid x (List.mem_cons_of_mem w hx)
    have ihb := ih b hchain' hvalid'
    have hwspan : w.intervalInMillisecond < 2 ^ 32 :=
      (hvalid w (List.mem_cons_self w _)).2
    have hbcur : b.curSlotIdx < b.slotNum := (hvalid' b (List.mem_cons_self b _)).1
    have hprod : b.curSlotIdx * b.intervalInMillisecond < 2 ^ 32 := by
      calc b.curSlotIdx * b.intervalInMillisecond
          ≤ b.slotNum * b.intervalInMillisecond :=
            Nat.mul_le_mul_right _ (le_of_lt hbcur)
        _ = w.intervalInMillisecond := hwb.symm
        _ < 2 ^ 32 := hwspan
    have hu : u32 (b.curSlotIdx * b.intervalInMillisecond)
        = b.curSlotIdx * b.intervalInMillisecond := Nat.mod_eq_of_lt hprod
    have hkey : (b.curSlotIdx + 1) * b.intervalInMillisecond ≤ w.intervalInMillisecond := by
      rw [hwb]
      exact Nat.mul_le_mul_right _ hbcur
    have hleast : leastSpan (w :: b :: rest) = leastSpan (b :: rest) := by
      simp [leastSpan, List.getLastD_cons]
    rw [getCurrentTime, hu, hleast]
    have hkey' : ((b.curSlotIdx : Int) + 1) * (b.intervalInMillisecond : Int)
        ≤ (w.intervalInMillisecond : Int) := by exact_mod_cast hkey
    push_cast
    push_cast at ihb
    nlinarith [ihb, hkey']

/-- C10 amended: in a canonically configured hierarchy (each wheel's
span equals its finer neighbour's slot count times that neighbour's
span, all slot indices in range, spans within uint32), a job whose due
time is in the past or less than one finest-level span away when
AddTimer is entered at the coarsest wheel is never rejected: the
insertion descends through every level and appends the job to the least
wheel's current slot, so it is harvested on the very next tick. -/
theorem C10_pastdue_placement (now : Int) (t : TimeoutJob) :
    ∀ (hier : List TimeWheel) (least : TimeWheel),
      hier.getLast? = some least →
      List.Chain' spanCanon hier →
      (∀ x ∈ hier, x.curSlotIdx < x.slotNum ∧ x.intervalInMillisecond < 2 ^ 32) →
      t.whenMs - now < (least.intervalInMillisecond : Int) →
      addTimer now t hier
        = hier.dropLast ++ [least.pushToSlot least.curSlotIdx t] := by
  intro hier
  induction hier with
  | nil =>
    intro least hlast
    simp at hlast
  | cons w finer ih =>
    intro least hlast hchain hvalid hdue
    cases finer with
    | nil =>
      have hw : w = least := by simpa using hlast
      subst hw
      have h0 : getCurrentTime [] = 0 := rfl
      have hnotle : ¬((w.intervalInMillisecond : Int)
          ≤ t.whenMs + getCurrentTime [] - now) := by
        rw [h0]
        intro hcon
        omega
      rw [addTimer.eq_def]
      simp only
      rw [if_neg hnotle]
      rfl
    | cons b rest =>
      have hlast' : (b :: rest).getLast? = some least := by
        rw [← hlast]
        exact (List.getLast?_cons_cons).symm
      obtain ⟨hwb, hchain'⟩ := List.chain'_cons.mp hchain
      have hvalid' : ∀ x ∈ b :: rest, x.curSlotIdx < x.slotNum
          ∧ x.intervalInMillisecond < 2 ^ 32 :=
        fun x hx => hvalid x (List.mem_cons_of_mem w hx)
      have hrec := ih least hlast' hchain' hvalid' hdue
      have hb := getCurrentTime_le (b :: rest) w hchain hvalid
      have hls : leastSpan (w :: b :: rest) = least.intervalInMillisecond := by
        unfold leastSpan
        rw [List.getLastD_eq_getLast?, hlast]
        rfl
      have hdiff : t.whenMs + getCurrentTime (b :: rest) - now
          < (w.intervalInMillisecond : Int) := by
        rw [hls] at hb
        omega
      rw [addTimer.eq_def]
      simp only
      rw [if_neg (not_le.mpr hdiff)]
      show w :: addTimer now t (b :: rest) = _
      rw [hrec]
      rfl

/-- Mis-configured coarse wheel for the C10 counterexample: span 10,
smaller than the state its finer neighbour can accumulate. -/
def coarseC10 : TimeWheel := ⟨10, 10, 0, List.replicate 10 []⟩

/-- Finer wheel of the C10 counterexample: span 100, currently at
index 5 (accumulated offset 500). -/
def fineC10 : TimeWheel := ⟨10, 100, 5, List.replicate 10 []⟩

/-- Already past-due one-shot job of the C10 counterexample. -/
def tC10 : TimeoutJob := ⟨1, -1, 0, false⟩

/-- C10 counterexample: in a mis-configured hierarchy the already
past-due job (due -1 at clock 0, below one finest-level span) is
captured by the COARSE wheel: the finest wheel comes back unchanged and
its current slot stays empty, so the job does not end in the finest
wheel's current-index bucket as the claim states. -/
theorem C10_counterexample :
    tC10.whenMs - 0 < (fineC10.intervalInMillisecond : Int)
      ∧ (addTimer 0 tC10 [coarseC10, fineC10]).getD 1 dWheel = fineC10
      ∧ fineC10.slots.getD fineC10.curSlotIdx [] = [] := by
  decide

/-- Witness for C10 on a canonical two-level hierarchy (coarse: 10
slots of 100 ms; fine: 10 slots of 10 ms): a job due 5 ms from now
descends to the fine wheel's current slot. -/
theorem C10_pastdue_placement_witness :
    addTimer 0 ⟨1, 5, 0, false⟩ [mkTimeWheel 10 100, mkTimeWheel 10 10]
      = [mkTimeWheel 10 100,
         (mkTimeWheel 10 10).pushToSlot (mkTimeWheel 10 10).curSlotIdx ⟨1, 5, 0, false⟩] := by
  have h := C10_pastdue_placement 0 ⟨1, 5, 0, false⟩
    [mkTimeWheel 10 100, mkTimeWheel 10 10] (mkTimeWheel 10 10) (by decide)
    (List.chain'_cons.mpr ⟨rfl, List.chain'_singleton _⟩) (by decide) (by decide)
  rw [h]
  rfl

end Shkwon
